import Mathlib

/-!
Verification development for the CodiCode autonomous-agent core.

This file gives a shallow embedding, in Lean 4, of the execution engine of
the repository: the tool-call protocol embedded in model output
(`src/llm/ollama.py` and `src/cli/streaming_interface.py`), the tool
registry and its dispatch contract (`src/tools/registry.py`), and the
agent loop orchestrator (`src/agent/controller.py`).  Pure Python
functions become Lean functions; mutation of `self` becomes explicit
state passing; a Python method that can raise an exception returns an
`Except` value whose `error` case is the propagated exception.  External
collaborators (the LLM backend and the concrete tool bodies) are
abstracted as function parameters, exactly at the boundary the source
code uses them.
-/

/-! ## Text utilities

Python string operations used by the source, modelled over `List Char`
(for parsing-level code) and `String` (for the controller).  Text in the
repository is ASCII, where `Char.toLower` agrees with Python
`str.lower`. -/

/-- Substring test: Python `pat in hay` (`str.__contains__`). -/
def hasSub (pat : List Char) : List Char → Bool
  | [] => pat.isEmpty
  | c :: t => if pat.isPrefixOf (c :: t) then true else hasSub pat t

/-- Index of the first occurrence of `pat`: Python `hay.index(pat)`;
`none` models the `ValueError` raised when `pat` does not occur. -/
def firstIdx (pat : List Char) : List Char → Option Nat
  | [] => if pat.isEmpty then some 0 else none
  | c :: t => if pat.isPrefixOf (c :: t) then some 0 else (firstIdx pat t).map (· + 1)

/-- Python whitespace (the characters `str.strip` removes). -/
def pyWs (c : Char) : Bool :=
  [' ', '\t', '\n', '\r', '\x0b', '\x0c'].contains c

/-- Python `s.strip()`. -/
def pyStrip (s : List Char) : List Char :=
  ((s.dropWhile pyWs).reverse.dropWhile pyWs).reverse

/-- Python `s.lower()` (ASCII-faithful). -/
def pyLower (s : String) : String :=
  String.mk (s.data.map Char.toLower)

/-- Substring test on `String`: Python `pat in s`. -/
def strHasSub (s pat : String) : Bool :=
  hasSub pat.data s.data

/-! ## JSON values

The universe of Python values produced by `json.loads`, as a mutual
inductive family (objects keep their members in document order; lookup
takes the last occurrence of a key, as Python dict construction does). -/

mutual

inductive Json where
  | null : Json
  | bool (b : Bool) : Json
  | num (n : Int) : Json
  | str (s : List Char) : Json
  | arr (items : JsonList) : Json
  | obj (fields : JsonObj) : Json

inductive JsonList where
  | nil : JsonList
  | cons (hd : Json) (tl : JsonList) : JsonList

inductive JsonObj where
  | nil : JsonObj
  | cons (key : List Char) (val : Json) (tl : JsonObj) : JsonObj

end

/-- Python dict lookup on an object built by `json.loads`: the last
occurrence of a key wins (later duplicate keys overwrite earlier ones). -/
def objGetLast (key : List Char) : JsonObj → Option Json
  | .nil => none
  | .cons k v tl =>
    match objGetLast key tl with
    | some r => some r
    | none => if k = key then some v else none

/-! ## A decoder for `json.loads`

Modelled from the Python standard library semantics the source relies
on: `json.loads` either returns a value or raises `JSONDecodeError`
(a subclass of `ValueError`).  The model covers the JSON subset the
protocol uses — objects, arrays, strings with the simple escapes,
integers, `true`/`false`/`null` — and reports an error on anything else
(non-integer numbers are outside the modelled subset).  The decoder is
fuel-indexed for structural termination; `jsonLoads` supplies fuel that
is always sufficient because every nesting level consumes input. -/

/-- The simple string escapes of the JSON grammar, as
(escape letter, denoted character) pairs (`\uXXXX` is outside the
modelled subset). -/
def escTable : List (Char × Char) :=
  [('"', '"'), ('\\', '\\'), ('/', '/'), ('b', '\x08'), ('f', '\x0c'),
   ('n', '\n'), ('r', '\r'), ('t', '\t')]

/-- Look one escape letter up in `escTable`. -/
def escChar (c : Char) : Option Char :=
  (escTable.find? (fun p => p.fst == c)).map Prod.snd

/-- Body of a JSON string after the opening quote: returns the decoded
characters and the rest of the input after the closing quote. -/
def jsonStrChars : List Char → Except String (List Char × List Char)
  | [] => .error "Unterminated string"
  | c :: rest =>
    if c = '"' then .ok ([], rest)
    else if c = '\\' then
      match rest with
      | [] => .error "Unterminated string escape"
      | e :: rest2 =>
        match escChar e with
        | none => .error "Invalid escape"
        | some ec => (jsonStrChars rest2).map (fun p => (ec :: p.1, p.2))
    else (jsonStrChars rest).map (fun p => (c :: p.1, p.2))

/-- Leading decimal digits of the input, and the rest. -/
def takeDigits (s : List Char) : List Char × List Char :=
  (s.takeWhile Char.isDigit, s.dropWhile Char.isDigit)

/-- Numeric value of one decimal digit. -/
def digitVal (c : Char) : Nat := c.toNat - 48

/-- Value of a digit string. -/
def digitsVal (ds : List Char) : Nat :=
  ds.foldl (fun a c => 10 * a + digitVal c) 0

/-- A JSON number (integer subset): optional minus sign, then digits. -/
def jsonNum : List Char → Except String (Json × List Char)
  | [] => .error "Expecting value"
  | c :: t =>
    if c = '-' then
      let p := takeDigits t
      if p.1.isEmpty then .error "Expecting value"
      else .ok (Json.num (-(digitsVal p.1 : Int)), p.2)
    else
      let p := takeDigits (c :: t)
      if p.1.isEmpty then .error "Expecting value"
      else .ok (Json.num (digitsVal p.1 : Int), p.2)

mutual

/-- A JSON value (after optional leading whitespace). -/
def jsonVal : Nat → List Char → Except String (Json × List Char)
  | 0, _ => .error "Too deeply nested"
  | fuel + 1, s =>
    match (s.dropWhile pyWs) with
    | [] => .error "Expecting value"
    | c :: rest =>
      if c = '"' then (jsonStrChars rest).map (fun p => (Json.str p.1, p.2))
      else if c = '\x7b' then jsonObjRest fuel rest
      else if c = '[' then jsonArrRest fuel rest
      else if c = 't' then
        if ("rue".data).isPrefixOf rest then .ok (Json.bool true, rest.drop 3)
        else .error "Expecting value"
      else if c = 'f' then
        if ("alse".data).isPrefixOf rest then .ok (Json.bool false, rest.drop 4)
        else .error "Expecting value"
      else if c = 'n' then
        if ("ull".data).isPrefixOf rest then .ok (Json.null, rest.drop 3)
        else .error "Expecting value"
      else jsonNum (c :: rest)

/-- The inside of a JSON object, after the opening brace. -/
def jsonObjRest : Nat → List Char → Except String (Json × List Char)
  | 0, _ => .error "Too deeply nested"
  | fuel + 1, s =>
    match (s.dropWhile pyWs) with
    | '\x7d' :: rest => .ok (Json.obj JsonObj.nil, rest)
    | other => (jsonMembers fuel other).map (fun p => (Json.obj p.1, p.2))

/-- One or more `key : value` members, with separating commas, up to and
including the closing brace. -/
def jsonMembers : Nat → List Char → Except String (JsonObj × List Char)
  | 0, _ => .error "Too deeply nested"
  | fuel + 1, s =>
    match (s.dropWhile pyWs) with
    | '"' :: rest =>
      match jsonStrChars rest with
      | .error e => .error e
      | .ok (key, rest2) =>
        match (rest2.dropWhile pyWs) with
        | ':' :: rest3 =>
          match jsonVal fuel rest3 with
          | .error e => .error e
          | .ok (v, rest4) =>
            match (rest4.dropWhile pyWs) with
            | ',' :: rest5 =>
              (jsonMembers fuel rest5).map (fun p => (JsonObj.cons key v p.1, p.2))
            | '\x7d' :: rest5 => .ok (JsonObj.cons key v JsonObj.nil, rest5)
            | _ => .error "Expecting comma"
        | _ => .error "Expecting colon"
    | _ => .error "Expecting property name"

/-- The inside of a JSON array, after the opening bracket. -/
def jsonArrRest : Nat → List Char → Except String (Json × List Char)
  | 0, _ => .error "Too deeply nested"
  | fuel + 1, s =>
    match (s.dropWhile pyWs) with
    | ']' :: rest => .ok (Json.arr JsonList.nil, rest)
    | other => (jsonItems fuel other).map (fun p => (Json.arr p.1, p.2))

/-- One or more array items, with separating commas, up to and including
the closing bracket. -/
def jsonItems : Nat → List Char → Except String (JsonList × List Char)
  | 0, _ => .error "Too deeply nested"
  | fuel + 1, s =>
    match jsonVal fuel s with
    | .error e => .error e
    | .ok (v, rest) =>
      match (rest.dropWhile pyWs) with
      | ',' :: rest2 => (jsonItems fuel rest2).map (fun p => (JsonList.cons v p.1, p.2))
      | ']' :: rest2 => .ok (JsonList.cons v JsonList.nil, rest2)
      | _ => .error "Expecting comma"

end

/-- Python `json.loads`: decode one document and require only trailing
whitespace after it (`Extra data` otherwise).  The `error` case models a
raised `json.JSONDecodeError`. -/
def jsonLoads (s : List Char) : Except String Json :=
  match jsonVal (s.length + 1) s with
  | .error e => .error e
  | .ok (v, rest) =>
    if (rest.dropWhile pyWs).isEmpty then .ok v else .error "Extra data"

/-! ## Tool-call protocol: `OllamaLLM._parse_tool_calls`

Embedding of `src/llm/ollama.py` lines 34-55.  The Python body is one
`try` block catching `(ValueError, KeyError, json.JSONDecodeError)`.
Exceptions of those classes therefore degrade to `None`; any other
exception propagates.  The one reachable uncaught exception is the
`TypeError` raised by `tool_data["tool"]` when `json.loads` returned a
non-dict value (a list, string, number, boolean or `None` is not
subscriptable by a string key).  The result type is
`Except PyErr (Option ParsedCall)`: `.error` is a propagated exception,
`.ok none` is Python `None` (zero calls), `.ok (some c)` is the
singleton list `[ToolCall(...)]`. -/

/-- An exception class that escapes the parser's `except` clause. -/
inductive PyErr where
  | typeError : PyErr
deriving DecidableEq

/-- The `ToolCall` dataclass as the parser constructs it: `name` and
`arguments` are whatever Python values the payload held. -/
structure ParsedCall where
  id : List Char
  name : Json
  arguments : Json

/-- The begin marker `<tool_call>`. -/
def beginMarker : List Char := "<tool_call>".data

/-- The end marker `</tool_call>`. -/
def endMarker : List Char := "</tool_call>".data

/-- The correlation id `f"call_\x7bhash(tool_json)\x7d"`.  Python's
`hash` is abstracted as the payload itself: the id is derived
deterministically from the payload and is never inspected by the core. -/
def callId (toolJson : List Char) : List Char := "call_".data ++ toolJson

/-- The candidate payload between the first begin marker and the first
end marker, stripped: `response_text[start:end].strip()` with
`start = index("<tool_call>") + 11` and `end = index("</tool_call>")`
(an end before the start yields the empty slice, as in Python). -/
def extractPayload (text : List Char) : List Char :=
  let start := (firstIdx beginMarker text).getD 0 + beginMarker.length
  let stop := (firstIdx endMarker text).getD 0
  pyStrip ((text.drop start).take (stop - start))

/-- `OllamaLLM._parse_tool_calls` (src/llm/ollama.py:34-55). -/
def parse_tool_calls (text : List Char) : Except PyErr (Option ParsedCall) :=
  if hasSub beginMarker text && hasSub endMarker text then
    let toolJson := extractPayload text
    match jsonLoads toolJson with
    | .error _ => .ok none
    | .ok (Json.obj fields) =>
      match objGetLast ("tool".data) fields with
      | none => .ok none
      | some nm =>
        .ok (some ⟨callId toolJson, nm,
          (objGetLast ("arguments".data) fields).getD (Json.obj JsonObj.nil)⟩)
    | .ok _ => .error .typeError
  else
    .ok none

/-- `StreamingCLI._parse_tool_calls` (src/cli/streaming_interface.py:131-156).
Structurally the same protocol; the missing end marker is detected by
the caught `ValueError` of `response.index` rather than by a guard, and
the zero-call result is the empty list. -/
def streamingParseToolCalls (response : List Char) : Except PyErr (List ParsedCall) :=
  if hasSub beginMarker response = false then
    .ok []
  else
    match firstIdx endMarker response with
    | none => .ok []
    | some stop =>
      let start := (firstIdx beginMarker response).getD 0 + beginMarker.length
      let toolJson := pyStrip ((response.drop start).take (stop - start))
      match jsonLoads toolJson with
      | .error _ => .ok []
      | .ok (Json.obj fields) =>
        match objGetLast ("tool".data) fields with
        | none => .ok []
        | some nm =>
          .ok [⟨callId toolJson, nm,
            (objGetLast ("arguments".data) fields).getD (Json.obj JsonObj.nil)⟩]
      | .ok _ => .error .typeError

/-! ## Tools and the registry

Embedding of `src/tools/base.py` and `src/tools/registry.py`.  A
concrete tool body is external code: it is modelled as a function from
keyword arguments to `Except String ToolResult`, where `.error e` is an
exception the tool raised with message `str(e) = e`.  The registry's
dict `self._tools` is an association list in insertion order (Python
dicts preserve insertion order and the registry keeps keys unique), and
mutation of the registry is explicit state passing. -/

/-- The `ToolResult` dataclass (src/tools/base.py:11-23): `data` is any
Python value (the `Json` universe), `error` a string; both default to
`None`. -/
structure ToolResult where
  success : Bool
  data : Option Json
  error : Option String

/-- The `BaseTool` interface (src/tools/base.py:26-72): name,
description, parameter schema and an execute body that may raise. -/
structure Tool where
  name : String
  description : String
  parameters_schema : Json
  execute : List (String × Json) → Except String ToolResult

/-- One entry of the registry's `self._execution_log`: the dict built at
src/tools/registry.py:73-76 plus the `result` key added before append. -/
structure LogEntry where
  tool : String
  parameters : List (String × Json)
  result : ToolResult

/-- The `ToolRegistry` state (src/tools/registry.py:16-18). -/
structure ToolRegistry where
  tools : List (String × Tool)
  execution_log : List LogEntry

/-- `ToolRegistry.list_tools` (src/tools/registry.py:42-44). -/
def ToolRegistry.list_tools (r : ToolRegistry) : List String :=
  r.tools.map Prod.fst

/-- `ToolRegistry.get_tool` (src/tools/registry.py:38-40):
`self._tools.get(name)`. -/
def ToolRegistry.get_tool (r : ToolRegistry) (name : String) : Option Tool :=
  (r.tools.find? (fun p => p.fst == name)).map Prod.snd

/-- The message of the `ValueError` raised on a duplicate registration. -/
def dupMsg (name : String) : String :=
  "Tool \x27" ++ name ++ "\x27 is already registered"

/-- `ToolRegistry.register` (src/tools/registry.py:20-31): raises
`ValueError` if the name is already a key of `self._tools`, otherwise
inserts the tool under its name (a fresh key goes to the end in
insertion order). -/
def ToolRegistry.register (r : ToolRegistry) (tool : Tool) : Except String ToolRegistry :=
  if tool.name ∈ r.tools.map Prod.fst then .error (dupMsg tool.name)
  else .ok { r with tools := r.tools ++ [(tool.name, tool)] }

/-- `ToolRegistry.register_all` (src/tools/registry.py:33-36): registers
in order; a raised `ValueError` propagates, and the `.error` case
carries the registry state at that moment (the mutations already done
are kept — Python mutates `self` in place and does not roll back). -/
def ToolRegistry.register_all (r : ToolRegistry) : List Tool → Except (String × ToolRegistry) ToolRegistry
  | [] => .ok r
  | t :: ts =>
    match r.register t with
    | .error m => .error (m, r)
    | .ok r2 => r2.register_all ts

/-- Python `str()` of a list of strings, as interpolated by the f-string
at src/tools/registry.py:69 (`repr` quotes each element). -/
def pyStrList (names : List String) : String :=
  "[" ++ String.intercalate ", " (names.map (fun n => "\x27" ++ n ++ "\x27")) ++ "]"

/-- The not-found error text of src/tools/registry.py:67-70. -/
def notFoundMsg (tool_name : String) (names : List String) : String :=
  "Tool \x27" ++ tool_name ++ "\x27 not found. Available: " ++ pyStrList names

/-- `ToolRegistry.execute` (src/tools/registry.py:53-92).  The unknown
name returns the not-found result before the log entry is created; a
known tool runs inside `try`, whose `except Exception` catches any
raised fault (including a `TypeError` from mismatched keyword
arguments, which Python raises at the call itself) and converts it to a
failed `ToolResult`; both arms of the `try` append exactly one log
entry.  Every Python path returns a `ToolResult` — no exception escapes
this method, which the total return type makes explicit. -/
def ToolRegistry.execute (r : ToolRegistry) (tool_name : String)
    (kwargs : List (String × Json)) : ToolResult × ToolRegistry :=
  match r.get_tool tool_name with
  | none =>
    (⟨false, none, some (notFoundMsg tool_name r.list_tools)⟩, r)
  | some tool =>
    match tool.execute kwargs with
    | .ok result =>
      (result, { r with execution_log := r.execution_log ++ [⟨tool_name, kwargs, result⟩] })
    | .error e =>
      let error_result : ToolResult := ⟨false, none, some ("Tool execution failed: " ++ e)⟩
      (error_result, { r with execution_log := r.execution_log ++ [⟨tool_name, kwargs, error_result⟩] })

/-! ## Rendering of Python values in conversation text

`AgentController._add_tool_results_to_history` interpolates the tool
result's `data` and `error` into an f-string; `str()` over the `Json`
value universe is modelled here (container reprs quote strings with
single quotes; the exotic cases of `repr` escaping are outside the
modelled subset). -/

mutual

/-- Python `repr()` of a value in the `Json` universe. -/
def pyReprJson : Json → String
  | .null => "None"
  | .bool b => if b then "True" else "False"
  | .num n => toString n
  | .str s => "\x27" ++ String.mk s ++ "\x27"
  | .arr items => "[" ++ pyReprItems items ++ "]"
  | .obj fields => "\x7b" ++ pyReprFields fields ++ "\x7d"

/-- Comma-separated reprs of list items. -/
def pyReprItems : JsonList → String
  | .nil => ""
  | .cons v .nil => pyReprJson v
  | .cons v tl => pyReprJson v ++ ", " ++ pyReprItems tl

/-- Comma-separated `key: value` reprs of dict members. -/
def pyReprFields : JsonObj → String
  | .nil => ""
  | .cons k v .nil => "\x27" ++ String.mk k ++ "\x27: " ++ pyReprJson v
  | .cons k v tl => "\x27" ++ String.mk k ++ "\x27: " ++ pyReprJson v ++ ", " ++ pyReprFields tl

end

/-- Python `str()` of a value: a string renders as itself, anything else
as its repr. -/
def pyStrJson : Json → String
  | .str s => String.mk s
  | v => pyReprJson v

/-- Python `str()` of an optional value (`None` prints as `None`). -/
def pyStrData : Option Json → String
  | none => "None"
  | some v => pyStrJson v

/-- Python `str()` of an optional string field. -/
def pyStrOptStr : Option String → String
  | none => "None"
  | some s => s

/-! ## The agent controller

Embedding of `src/agent/controller.py`.  The two external collaborators
are abstracted exactly at the interfaces the controller consumes:

* `llmGen` stands for `self.llm.generate(messages=..., tools=...,
  temperature=0.7)` of `_get_llm_response`; for a fixed controller
  instance the tool descriptors and sampling parameters are constant,
  so the response is a function of the conversation history.  Its
  `tool_calls` field is whatever list the backend's parser produced.
* `execTool` stands for `self.tool_registry.execute(name, **arguments)`
  of `_execute_tool_calls`.  Registry dispatch always returns a
  `ToolResult` (see `ToolRegistry.execute` above); because the external
  tools are stateful (filesystem, shell), the environment's answer may
  depend on how many dispatches happened before, which the `Nat` clock
  argument captures.

The `while` loop of `execute_task` terminates because each iteration
increments `step_count`, which the loop condition bounds by
`max_steps`; `loopGo` therefore recurses structurally on the remaining
iteration budget `max_steps - step_count`, and `agentLoop` supplies it.
When the budget is `0` the loop condition is false, so `loopGo 0` is
exactly the code after the loop. -/

/-- The `Message` dataclass (src/llm/base.py:10-14). -/
structure Message where
  role : String
  content : String
deriving DecidableEq

/-- The `ToolCall` dataclass (src/llm/base.py:17-22) as the controller
consumes it: `arguments` is a keyword mapping. -/
structure ToolCallMsg where
  id : String
  name : String
  arguments : List (String × Json)

/-- The `LLMResponse` dataclass (src/llm/base.py:25-35), restricted to
the fields the controller reads (`content` and `tool_calls`;
`tool_calls = None` and `tool_calls = []` are distinct, as in Python). -/
structure LLMResponse where
  content : String
  tool_calls : Option (List ToolCallMsg)

/-- `LLMResponse.has_tool_calls` (src/llm/base.py:33-35):
`self.tool_calls is not None and len(self.tool_calls) > 0`. -/
def hasToolCalls (r : LLMResponse) : Bool :=
  match r.tool_calls with
  | none => false
  | some l => !l.isEmpty

/-- The external world as seen through `_get_llm_response` and
`_execute_tool_calls`. -/
structure CtrlEnv where
  llmGen : List Message → LLMResponse
  execTool : Nat → ToolCallMsg → ToolResult

/-- The two budget parameters of `AgentController.__init__`
(src/agent/controller.py:18-29). -/
structure AgentConfig where
  max_steps : Nat
  max_tool_errors : Nat
deriving DecidableEq

/-- The mutable controller state (src/agent/controller.py:31-35). -/
structure AgentState where
  conversation_history : List Message
  step_count : Nat
  tool_error_count : Nat
  is_task_complete : Bool
deriving DecidableEq

/-- The fresh state built by `__init__`. -/
def initAgentState : AgentState :=
  { conversation_history := [], step_count := 0, tool_error_count := 0, is_task_complete := false }

/-- `AgentController.reset` (src/agent/controller.py:177-184): clears
the history and zeroes the counters and the completion flag. -/
def resetState (_st : AgentState) : AgentState :=
  { conversation_history := [], step_count := 0, tool_error_count := 0, is_task_complete := false }

/-- The strict completion phrases of `_is_response_final`
(src/agent/controller.py:163-169). -/
def strictPhrases : List String :=
  ["task complete", "task is complete", "finished the task", "successfully completed", "all done"]

/-- The loose conclusiveness phrases of the no-tool-call branch
(src/agent/controller.py:80-81). -/
def loosePhrases : List String :=
  ["complete", "done", "finished", "successfully"]

/-- `AgentController._is_response_final` (src/agent/controller.py:155-171):
any strict phrase contained in the lowercased content. -/
def isResponseFinal (content : String) : Bool :=
  strictPhrases.any (fun p => strHasSub (pyLower content) p)

/-- The loose-tier check at src/agent/controller.py:80-81. -/
def looseConclusive (content : String) : Bool :=
  loosePhrases.any (fun p => strHasSub (pyLower content) p)

/-- One entry of the `results` list built by `_execute_tool_calls`
(src/agent/controller.py:132-136). -/
structure ExecRecord where
  tool_call_id : String
  tool_name : String
  result : ToolResult

/-- The `for tool_call in response.tool_calls` loop of
`_execute_tool_calls` (src/agent/controller.py:114-138): dispatches each
call in order, counts failed results into `tool_error_count`, and
collects one record per call.  Returns the records, the advanced
dispatch clock, and the new error count. -/
def runToolCalls (env : CtrlEnv) : List ToolCallMsg → Nat → Nat → (List ExecRecord × Nat × Nat)
  | [], clock, errs => ([], clock, errs)
  | c :: cs, clock, errs =>
    let result := env.execTool clock c
    let errs2 := if result.success then errs else errs + 1
    let rest := runToolCalls env cs (clock + 1) errs2
    (⟨c.id, c.name, result⟩ :: rest.1, rest.2)

/-- `AgentController._add_tool_results_to_history`
(src/agent/controller.py:140-153): the formatted summary of the results. -/
def resultsText (recs : List ExecRecord) : String :=
  recs.foldl
    (fun acc tr =>
      acc ++ "\n" ++ tr.tool_name ++ ":\n" ++
        (if tr.result.success then "  Success: " ++ pyStrData tr.result.data ++ "\n"
         else "  Error: " ++ pyStrOptStr tr.result.error ++ "\n"))
    "Tool execution results:\n"

/-- The return statements of `execute_task`, one constructor per source
line: line 67 (error abort), line 75 (strict completion), line 83 (no
tool calls), line 93 (step limit), line 95 (fall-through). -/
inductive ExitKind where
  | abortErrors : ExitKind
  | finalResponse : ExitKind
  | noToolCalls : ExitKind
  | stepLimit : ExitKind
  | fallthrough : ExitKind
deriving DecidableEq

/-- The outcome of `execute_task`: which return fired, the returned
string, the final controller state, and two observation counters — how
many loop iterations ran and how many Gateway (`llm.generate`) calls
were made. -/
structure LoopResult where
  exit : ExitKind
  value : String
  finalState : AgentState
  iterations : Nat
  gatewayCalls : Nat
deriving DecidableEq

/-- The abort message of src/agent/controller.py:67. -/
def abortMsg (n : Nat) : String :=
  "Task aborted: Too many tool errors (" ++ toString n ++ ")"

/-- The step-limit message of src/agent/controller.py:93. -/
def stepLimitMsg (n : Nat) : String :=
  "Task incomplete: Reached maximum step limit (" ++ toString n ++ ")"

/-- The code after the `while` loop (src/agent/controller.py:91-95). -/
def boundaryReturn (cfg : AgentConfig) (st : AgentState) : LoopResult :=
  if cfg.max_steps ≤ st.step_count then
    ⟨.stepLimit, stepLimitMsg cfg.max_steps, st, 0, 0⟩
  else
    ⟨.fallthrough, "Task completed", st, 0, 0⟩

/-- The `while` loop of `execute_task` (src/agent/controller.py:61-95),
by structural recursion on the remaining iteration budget.  Each entered
iteration: increment `step_count`; abort if the error budget is spent
(before the Gateway is contacted); otherwise call the Gateway and append
the assistant message (`_get_llm_response`); return on strict
completion; return on a response without tool calls (setting the
completion flag if the loose tier matches); otherwise dispatch the
calls, append the results message, and continue. -/
def loopGo (cfg : AgentConfig) (env : CtrlEnv) : Nat → Nat → AgentState → LoopResult
  | 0, _, st => boundaryReturn cfg st
  | fuel + 1, clock, st =>
    if st.is_task_complete = false ∧ st.step_count < cfg.max_steps then
      let st1 : AgentState := { st with step_count := st.step_count + 1 }
      if cfg.max_tool_errors ≤ st1.tool_error_count then
        ⟨.abortErrors, abortMsg st1.tool_error_count, st1, 1, 0⟩
      else
        let resp := env.llmGen st1.conversation_history
        let st2 : AgentState :=
          { st1 with conversation_history := st1.conversation_history ++ [⟨"assistant", resp.content⟩] }
        if isResponseFinal resp.content then
          ⟨.finalResponse, resp.content, { st2 with is_task_complete := true }, 1, 1⟩
        else if hasToolCalls resp = false then
          ⟨.noToolCalls, resp.content,
            (if looseConclusive resp.content then { st2 with is_task_complete := true } else st2), 1, 1⟩
        else
          let out := runToolCalls env (resp.tool_calls.getD []) clock st2.tool_error_count
          let st3 : AgentState :=
            { st2 with
              tool_error_count := out.2.2,
              conversation_history := st2.conversation_history ++ [⟨"user", resultsText out.1⟩] }
          let r := loopGo cfg env fuel out.2.1 st3
          { r with iterations := r.iterations + 1, gatewayCalls := r.gatewayCalls + 1 }
    else
      boundaryReturn cfg st

/-- The loop with its actual budget: `max_steps - step_count` entries
remain possible, so this is exactly the `while` loop's behaviour. -/
def agentLoop (cfg : AgentConfig) (env : CtrlEnv) (clock : Nat) (st : AgentState) : LoopResult :=
  loopGo cfg env (cfg.max_steps - st.step_count) clock st

/-- `AgentController.execute_task` (src/agent/controller.py:37-95): the
conversation is re-seeded with the single user message, and then the
loop runs.  Note what is *not* here: `step_count`, `tool_error_count`
and `is_task_complete` keep whatever values the instance already had. -/
def execute_task (cfg : AgentConfig) (env : CtrlEnv) (st : AgentState) (task : String) : LoopResult :=
  agentLoop cfg env 0 { st with conversation_history := [⟨"user", task⟩] }

/-! ## Concrete environments used to exercise the loop -/

/-- An environment whose model always asks for one tool call and whose
tool always fails: exercises the budget paths. -/
def envFail : CtrlEnv :=
  { llmGen := fun _ => { content := "using a tool", tool_calls := some [⟨"id1", "t", []⟩] },
    execTool := fun _ _ => ⟨false, none, some "boom"⟩ }

/-- An environment whose model immediately reports completion with no
tool call. -/
def envDone : CtrlEnv :=
  { llmGen := fun _ => { content := "task complete", tool_calls := none },
    execTool := fun _ _ => ⟨true, none, none⟩ }

/-- An environment whose model reports completion while also carrying a
parseable tool call in the same response. -/
def envDoneWithCall : CtrlEnv :=
  { llmGen := fun _ =>
      { content := "Task complete. All files updated.",
        tool_calls := some [⟨"id9", "write_file", []⟩] },
    execTool := fun _ _ => ⟨true, none, none⟩ }

/-! ## Helper lemmas about substring search -/

/-- A list is a `isPrefixOf`-prefix of itself followed by anything. -/
theorem prefixOf_append (l r : List Char) : l.isPrefixOf (l ++ r) = true := by
  induction l with
  | nil => simp [List.isPrefixOf]
  | cons c t ih => simp [List.isPrefixOf, ih]

/-- An explicit occurrence makes the substring test succeed. -/
theorem hasSub_of_parts (pat pre post : List Char) :
    hasSub pat (pre ++ (pat ++ post)) = true := by
  induction pre with
  | nil =>
    cases pat with
    | nil => cases post <;> simp [hasSub]
    | cons c t => simp [hasSub, prefixOf_append]
  | cons c pre2 ih =>
    simp only [List.cons_append, hasSub]
    split
    · rfl
    · exact ih

/-- The not-found message contains the text `not found`. -/
theorem notFoundMsg_hasSub_notFound (n : String) (names : List String) :
    strHasSub (notFoundMsg n names) "not found" = true := by
  have hsplit : "\x27 not found. Available: ".data
      = "\x27 ".data ++ ("not found".data ++ ". Available: ".data) := by decide
  have h := hasSub_of_parts "not found".data
    ("Tool \x27".data ++ n.data ++ "\x27 ".data)
    (". Available: ".data ++ (pyStrList names).data)
  simp only [strHasSub, notFoundMsg, String.data_append, hsplit]
  simpa [List.append_assoc] using h

/-- The not-found message contains the rendered list of registered
names. -/
theorem notFoundMsg_hasSub_names (n : String) (names : List String) :
    strHasSub (notFoundMsg n names) (pyStrList names) = true := by
  have h := hasSub_of_parts (pyStrList names).data
    ("Tool \x27".data ++ n.data ++ "\x27 not found. Available: ".data) []
  simp only [strHasSub, notFoundMsg, String.data_append]
  simpa [List.append_assoc] using h

/-! ## Helper lemmas about the registry -/

/-- A successful registration appends exactly the new name. -/
theorem register_ok_names (r : ToolRegistry) (t : Tool) (r2 : ToolRegistry)
    (h : r.register t = .ok r2) : r2.list_tools = r.list_tools ++ [t.name] := by
  unfold ToolRegistry.register at h
  split at h
  · exact absurd h (by simp)
  · cases h
    simp [ToolRegistry.list_tools]

/-- `register_all` distributes over list append, threading the state. -/
theorem register_all_append (xs ys : List Tool) :
    ∀ r : ToolRegistry, r.register_all (xs ++ ys)
      = match r.register_all xs with
        | .ok r2 => r2.register_all ys
        | .error e => .error e := by
  induction xs with
  | nil => intro r; simp [ToolRegistry.register_all]
  | cons t ts ih =>
    intro r
    simp only [List.cons_append, ToolRegistry.register_all]
    cases r.register t with
    | error m => rfl
    | ok r2 => exact ih r2

/-- Names survive and accumulate through a successful `register_all`. -/
theorem register_all_mem (ts : List Tool) :
    ∀ (r r2 : ToolRegistry), r.register_all ts = .ok r2 →
      (∀ t ∈ ts, t.name ∈ r2.list_tools) ∧ (∀ n ∈ r.list_tools, n ∈ r2.list_tools) := by
  induction ts with
  | nil =>
    intro r r2 h
    cases h
    exact ⟨by simp, fun n hn => hn⟩
  | cons t ts2 ih =>
    intro r r2 h
    simp only [ToolRegistry.register_all] at h
    cases hreg : r.register t with
    | error m => rw [hreg] at h; cases h
    | ok rmid =>
      rw [hreg] at h
      have hnames := register_ok_names r t rmid hreg
      have hrest := ih rmid r2 h
      refine ⟨?_, ?_⟩
      · intro u hu
        rcases List.mem_cons.mp hu with hu | hu
        · subst hu
          exact hrest.2 u.name (by simp [hnames])
        · exact hrest.1 u hu
      · intro n hn
        exact hrest.2 n (by simp [hnames, hn])

/-! ## Claims about the registry -/

/-- Claim C5 (confirmed): `ToolRegistry.execute` always returns a
`ToolResult` (the embedding is total: every raise site of the Python
body sits inside the `try`/`except Exception`); an unregistered name
yields `success = false` with an error text containing `not found` and
the rendered list of currently registered names; a registered tool whose
body raises yields `success = false` with the descriptive
`Tool execution failed:` text. -/
theorem claim5_registry_dispatch :
    ∀ (r : ToolRegistry) (name : String) (kwargs : List (String × Json)),
      (r.get_tool name = none →
          (r.execute name kwargs).1.success = false
        ∧ (r.execute name kwargs).1.error = some (notFoundMsg name r.list_tools)
        ∧ strHasSub (notFoundMsg name r.list_tools) "not found" = true
        ∧ strHasSub (notFoundMsg name r.list_tools) (pyStrList r.list_tools) = true)
      ∧ (∀ t e, r.get_tool name = some t → t.execute kwargs = .error e →
          (r.execute name kwargs).1.success = false
        ∧ (r.execute name kwargs).1.error = some ("Tool execution failed: " ++ e)) := by
  intro r name kwargs
  constructor
  · intro h
    simp [ToolRegistry.execute, h, notFoundMsg_hasSub_notFound, notFoundMsg_hasSub_names]
  · intro t e ht he
    simp [ToolRegistry.execute, ht, he]

/-- Witness for C5 at a concrete registry: a tool whose body raises, and
an unknown name. -/
theorem claim5_registry_dispatch_witness :
    ((⟨[("boom", ⟨"boom", "", Json.null, fun _ => .error "kaboom"⟩)], []⟩ :
        ToolRegistry).execute "boom" []).1.error = some ("Tool execution failed: " ++ "kaboom")
    ∧ ((⟨[], []⟩ : ToolRegistry).execute "nope" []).1.success = false := by
  refine ⟨?_, ?_⟩
  · exact ((claim5_registry_dispatch
      ⟨[("boom", ⟨"boom", "", Json.null, fun _ => .error "kaboom"⟩)], []⟩ "boom" []).2
      ⟨"boom", "", Json.null, fun _ => .error "kaboom"⟩ "kaboom" rfl rfl).2
  · exact ((claim5_registry_dispatch ⟨[], []⟩ "nope" []).1 rfl).1

/-- Claim C6 (confirmed): registering a duplicate name raises the
`ValueError` before any state change, and a successful registration
appends the fresh name, so a registry with pairwise-distinct names keeps
that invariant through every registration. -/
theorem claim6_register_unique :
    ∀ (r : ToolRegistry) (t : Tool),
      (t.name ∈ r.list_tools → r.register t = .error (dupMsg t.name))
      ∧ (t.name ∉ r.list_tools →
          r.register t = .ok { r with tools := r.tools ++ [(t.name, t)] })
      ∧ (r.list_tools.Nodup → ∀ r2, r.register t = .ok r2 → r2.list_tools.Nodup) := by
  intro r t
  refine ⟨?_, ?_, ?_⟩
  · intro h
    simp [ToolRegistry.register, ToolRegistry.list_tools] at *
    simp [h]
  · intro h
    simp [ToolRegistry.list_tools] at h
    simp [ToolRegistry.register, h]
  · intro hnd r2 hok
    unfold ToolRegistry.register at hok
    split at hok
    · exact absurd hok (by simp)
    · cases hok
      rename_i hnotmem
      simp only [ToolRegistry.list_tools] at hnd ⊢
      simp [List.Nodup, List.pairwise_append, hnd]
      refine ⟨hnd, ?_⟩
      intro a x hmem heq
      exact hnotmem (heq ▸ List.mem_map_of_mem Prod.fst hmem)

/-- Witness for C6: a duplicate of a concretely registered tool is
refused, and the singleton registry keeps distinct names. -/
theorem claim6_register_unique_witness :
    (⟨[("a", ⟨"a", "", Json.null, fun _ => .ok ⟨true, none, none⟩⟩)], []⟩ :
        ToolRegistry).register ⟨"a", "d", Json.null, fun _ => .ok ⟨true, none, none⟩⟩
      = .error (dupMsg "a") := by
  exact (claim6_register_unique
    ⟨[("a", ⟨"a", "", Json.null, fun _ => .ok ⟨true, none, none⟩⟩)], []⟩
    ⟨"a", "d", Json.null, fun _ => .ok ⟨true, none, none⟩⟩).1 (by decide)

/-- Claim C9, counterexample: dispatching an unregistered name appends
nothing to the execution log — the not-found return at
src/tools/registry.py:66-70 happens before the log entry is created, so
the log does not grow by one entry as the claim asserts for every call. -/
theorem claim9_counterexample :
    ¬ (((⟨[], []⟩ : ToolRegistry).execute "read_file" []).2.execution_log.length
        = (⟨[], []⟩ : ToolRegistry).execution_log.length + 1) := by
  decide

/-- Claim C9 as amended (every call whose name is registered appends
exactly one entry recording the name, the arguments and the returned
result, whether the tool succeeded or raised; a call with an
unregistered name returns the not-found result without touching the
log): proved. -/
theorem claim9_amended_logging :
    ∀ (r : ToolRegistry) (name : String) (kwargs : List (String × Json)),
      (r.get_tool name = none →
        (r.execute name kwargs).2.execution_log = r.execution_log)
      ∧ (∀ t, r.get_tool name = some t →
        (r.execute name kwargs).2.execution_log
          = r.execution_log ++ [⟨name, kwargs, (r.execute name kwargs).1⟩]) := by
  intro r name kwargs
  constructor
  · intro h
    simp [ToolRegistry.execute, h]
  · intro t ht
    cases he : t.execute kwargs with
    | ok result => simp [ToolRegistry.execute, ht, he]
    | error e => simp [ToolRegistry.execute, ht, he]

/-- Witness for the amended C9 at a concrete registry: a registered tool
logs exactly one entry, an unknown name logs nothing. -/
theorem claim9_amended_logging_witness :
    ((⟨[("ok", ⟨"ok", "", Json.null, fun _ => .ok ⟨true, none, none⟩⟩)], []⟩ :
        ToolRegistry).execute "ok" []).2.execution_log
      = [] ++ [⟨"ok", [],
          ((⟨[("ok", ⟨"ok", "", Json.null, fun _ => .ok ⟨true, none, none⟩⟩)], []⟩ :
            ToolRegistry).execute "ok" []).1⟩]
    ∧ ((⟨[], []⟩ : ToolRegistry).execute "zzz" []).2.execution_log = [] := by
  refine ⟨?_, ?_⟩
  · exact (claim9_amended_logging
      ⟨[("ok", ⟨"ok", "", Json.null, fun _ => .ok ⟨true, none, none⟩⟩)], []⟩ "ok" []).2
      ⟨"ok", "", Json.null, fun _ => .ok ⟨true, none, none⟩⟩ rfl
  · exact (claim9_amended_logging ⟨[], []⟩ "zzz" []).1 rfl

/-- Claim C10 (confirmed): `register_all` is not atomic — when a batch
contains a tool whose name is already taken by the time it is reached,
the raised `ValueError` propagates from exactly that element, and the
registry keeps every tool registered before the duplicate (no
rollback). -/
theorem claim10_register_all_not_atomic :
    ∀ (r : ToolRegistry) (pre : List Tool) (dup : Tool) (rest : List Tool) (r1 : ToolRegistry),
      r.register_all pre = .ok r1 → dup.name ∈ r1.list_tools →
        r.register_all (pre ++ dup :: rest) = .error (dupMsg dup.name, r1)
        ∧ ∀ t ∈ pre, t.name ∈ r1.list_tools := by
  intro r pre dup rest r1 hok hmem
  constructor
  · rw [register_all_append, hok]
    simp only [ToolRegistry.register_all, ToolRegistry.register]
    rw [if_pos]
    exact hmem
  · exact (register_all_mem pre r r1 hok).1

/-- Witness for C10: registering `[a, a2]` with equal names fails at the
second element while the first stays registered. -/
theorem claim10_register_all_not_atomic_witness :
    (⟨[], []⟩ : ToolRegistry).register_all
        [⟨"a", "", Json.null, fun _ => .ok ⟨true, none, none⟩⟩,
         ⟨"a", "d", Json.null, fun _ => .ok ⟨false, none, none⟩⟩]
      = .error (dupMsg "a",
          ⟨[("a", ⟨"a", "", Json.null, fun _ => .ok ⟨true, none, none⟩⟩)], []⟩)
    ∧ ("a" : String) ∈ (⟨[("a", ⟨"a", "", Json.null, fun _ => .ok ⟨true, none, none⟩⟩)], []⟩ :
        ToolRegistry).list_tools := by
  have h := claim10_register_all_not_atomic ⟨[], []⟩
    [⟨"a", "", Json.null, fun _ => .ok ⟨true, none, none⟩⟩]
    ⟨"a", "d", Json.null, fun _ => .ok ⟨false, none, none⟩⟩ []
    ⟨[("a", ⟨"a", "", Json.null, fun _ => .ok ⟨true, none, none⟩⟩)], []⟩
    rfl (by simp [ToolRegistry.list_tools])
  exact ⟨h.1, h.2 ⟨"a", "", Json.null, fun _ => .ok ⟨true, none, none⟩⟩ (by simp)⟩

/-! ## Helper lemmas about the agent loop -/

/-- Dispatching a batch of tool calls never decreases the error count. -/
theorem runToolCalls_errs_le (env : CtrlEnv) :
    ∀ (calls : List ToolCallMsg) (clock errs : Nat),
      errs ≤ (runToolCalls env calls clock errs).2.2 := by
  intro calls
  induction calls with
  | nil => intro clock errs; simp [runToolCalls]
  | cons c cs ih =>
    intro clock errs
    simp only [runToolCalls]
    split
    · exact ih (clock + 1) errs
    · exact le_trans (Nat.le_succ errs) (ih (clock + 1) (errs + 1))

/-- The final `step_count` is the initial one plus the number of entered
iterations: `step_count` increases by exactly one per iteration. -/
theorem loopGo_step (cfg : AgentConfig) (env : CtrlEnv) :
    ∀ (fuel clock : Nat) (st : AgentState),
      (loopGo cfg env fuel clock st).finalState.step_count
        = st.step_count + (loopGo cfg env fuel clock st).iterations := by
  intro fuel
  induction fuel with
  | zero =>
    intro clock st
    simp only [loopGo, boundaryReturn]
    split <;> simp
  | succ n ih =>
    intro clock st
    simp only [loopGo]
    split
    · split
      · simp
      · split
        · simp
        · split
          · split <;> simp
          · simp only []
            rw [ih]
            simp
            omega
    · simp only [boundaryReturn]
      split <;> simp

/-- The loop never pushes `step_count` beyond `max_steps`. -/
theorem loopGo_le (cfg : AgentConfig) (env : CtrlEnv) :
    ∀ (fuel clock : Nat) (st : AgentState), st.step_count ≤ cfg.max_steps →
      (loopGo cfg env fuel clock st).finalState.step_count ≤ cfg.max_steps := by
  intro fuel
  induction fuel with
  | zero =>
    intro clock st h
    simp only [loopGo, boundaryReturn]
    split <;> simpa
  | succ n ih =>
    intro clock st h
    simp only [loopGo]
    split
    · rename_i hcond
      obtain ⟨h1, h2⟩ := hcond
      split
      · simpa using h2
      · split
        · simpa using h2
        · split
          · split <;> simpa using h2
          · simp only []
            exact ih _ _ (by simp; omega)
    · simp only [boundaryReturn]
      split <;> simpa

/-- Exactly one Gateway call per iteration, except the aborting
iteration, which has none: the abort decision precedes the Gateway
contact. -/
theorem loopGo_gateway (cfg : AgentConfig) (env : CtrlEnv) :
    ∀ (fuel clock : Nat) (st : AgentState),
      (loopGo cfg env fuel clock st).iterations
        = (loopGo cfg env fuel clock st).gatewayCalls
          + (if (loopGo cfg env fuel clock st).exit = ExitKind.abortErrors then 1 else 0) := by
  intro fuel
  induction fuel with
  | zero =>
    intro clock st
    simp only [loopGo, boundaryReturn]
    split <;> simp
  | succ n ih =>
    intro clock st
    simp only [loopGo]
    split
    · split
      · simp
      · split
        · simp
        · split
          · split <;> simp
          · simp only []
            rw [ih]
            split <;> simp
    · simp only [boundaryReturn]
      split <;> simp

/-- Once the error budget is spent, only the two budget exits remain:
either the in-loop abort fires, or the loop cannot be re-entered and the
step-limit return fires.  (Stated with enough fuel to cover the
remaining steps, as `agentLoop` always supplies.) -/
theorem loopGo_errors_exit (cfg : AgentConfig) (env : CtrlEnv) :
    ∀ (fuel clock : Nat) (st : AgentState),
      cfg.max_steps ≤ st.step_count + fuel →
      st.is_task_complete = false →
      ((loopGo cfg env fuel clock st).exit = ExitKind.abortErrors
        ∨ (loopGo cfg env fuel clock st).exit = ExitKind.stepLimit)
      ∨ (loopGo cfg env fuel clock st).finalState.tool_error_count < cfg.max_tool_errors := by
  intro fuel
  induction fuel with
  | zero =>
    intro clock st hf hc
    have hs : cfg.max_steps ≤ st.step_count := by omega
    simp [loopGo, boundaryReturn, hs]
  | succ n ih =>
    intro clock st hf hc
    simp only [loopGo]
    split
    · rename_i hcond
      obtain ⟨h1, h2⟩ := hcond
      split
      · simp
      · rename_i ha
        split
        · right
          simp
          omega
        · split
          · right
            split <;> simp <;> omega
          · simp only []
            exact ih _ _ (by simp; omega) (by simpa using hc)
    · rename_i hcond
      rw [not_and] at hcond
      have hs : cfg.max_steps ≤ st.step_count := by
        have := hcond hc
        omega
      simp [boundaryReturn, hs]

/-- The conversation only grows: whatever message led the history when
the loop started still leads it at every exit. -/
theorem loopGo_head (cfg : AgentConfig) (env : CtrlEnv) :
    ∀ (fuel clock : Nat) (st : AgentState) (m : Message),
      st.conversation_history.head? = some m →
      (loopGo cfg env fuel clock st).finalState.conversation_history.head? = some m := by
  intro fuel
  induction fuel with
  | zero =>
    intro clock st m hm
    simp only [loopGo, boundaryReturn]
    split <;> simpa
  | succ n ih =>
    intro clock st m hm
    rcases hh : st.conversation_history with _ | ⟨m0, rest⟩
    · rw [hh] at hm; cases hm
    · rw [hh] at hm
      simp only [List.head?_cons, Option.some.injEq] at hm
      subst hm
      simp only [loopGo]
      split
      · split
        · simpa [hh]
        · split
          · simp [hh]
          · split
            · split <;> simp [hh]
            · simp only []
              exact ih _ _ _ (by simp [hh])
      · simp only [boundaryReturn]
        split <;> simpa [hh]

/-- The error count never decreases across the loop. -/
theorem loopGo_errors_mono (cfg : AgentConfig) (env : CtrlEnv) :
    ∀ (fuel clock : Nat) (st : AgentState),
      st.tool_error_count ≤ (loopGo cfg env fuel clock st).finalState.tool_error_count := by
  intro fuel
  induction fuel with
  | zero =>
    intro clock st
    simp only [loopGo, boundaryReturn]
    split <;> simp
  | succ n ih =>
    intro clock st
    simp only [loopGo]
    split
    · split
      · simp
      · split
        · simp
        · split
          · split <;> simp
          · simp only []
            refine le_trans
              (runToolCalls_errs_le env
                ((env.llmGen st.conversation_history).tool_calls.getD []) clock
                st.tool_error_count) ?_
            exact ih
              (runToolCalls env ((env.llmGen st.conversation_history).tool_calls.getD [])
                clock st.tool_error_count).2.1
              ⟨st.conversation_history ++
                  [⟨"assistant", (env.llmGen st.conversation_history).content⟩] ++
                  [⟨"user", resultsText (runToolCalls env
                    ((env.llmGen st.conversation_history).tool_calls.getD [])
                    clock st.tool_error_count).1⟩],
                st.step_count + 1,
                (runToolCalls env ((env.llmGen st.conversation_history).tool_calls.getD [])
                  clock st.tool_error_count).2.2,
                st.is_task_complete⟩
    · simp only [boundaryReturn]
      split <;> simp

/-- An error abort returns the too-many-tool-errors message for the
final error count, and that count has indeed reached the budget. -/
theorem loopGo_abort_value (cfg : AgentConfig) (env : CtrlEnv) :
    ∀ (fuel clock : Nat) (st : AgentState),
      (loopGo cfg env fuel clock st).exit = ExitKind.abortErrors →
      (loopGo cfg env fuel clock st).value
          = abortMsg (loopGo cfg env fuel clock st).finalState.tool_error_count
        ∧ cfg.max_tool_errors ≤ (loopGo cfg env fuel clock st).finalState.tool_error_count := by
  intro fuel
  induction fuel with
  | zero =>
    intro clock st h
    simp only [loopGo, boundaryReturn] at h ⊢
    split at h <;> cases h
  | succ n ih =>
    intro clock st
    simp only [loopGo]
    split
    · split
      · rename_i ha
        intro _
        exact ⟨rfl, ha⟩
      · split
        · intro h; cases h
        · split
          · intro h; cases h
          · simp only []
            intro h
            exact ih _ _ h
    · simp only [boundaryReturn]
      split <;> (intro h; cases h)

/-- A stale completion flag short-circuits the loop: nothing runs, the
fall-through message is returned, and the state is untouched. -/
theorem loopGo_stale (cfg : AgentConfig) (env : CtrlEnv)
    (fuel clock : Nat) (st : AgentState)
    (h1 : st.is_task_complete = true) (h2 : st.step_count < cfg.max_steps) :
    loopGo cfg env fuel clock st
      = ⟨ExitKind.fallthrough, "Task completed", st, 0, 0⟩ := by
  have hs : ¬ cfg.max_steps ≤ st.step_count := by omega
  cases fuel <;> simp [loopGo, boundaryReturn, h1, hs]

/-! ## Claims about the agent loop -/

/-- Claim C1, counterexample: with `max_steps = 1` and
`max_tool_errors = 1`, a single failing dispatch spends the whole error
budget during step 1, yet the run ends with the step-limit status — the
`while` condition is re-checked before the in-loop error check can run,
so the claimed unconditional abort with the too-many-tool-errors status
does not happen when the step limit is reached at the same boundary. -/
theorem claim1_counterexample :
    (execute_task ⟨1, 1⟩ envFail initAgentState "go").exit = ExitKind.stepLimit
    ∧ (execute_task ⟨1, 1⟩ envFail initAgentState "go").exit ≠ ExitKind.abortErrors
    ∧ (⟨1, 1⟩ : AgentConfig).max_tool_errors
        ≤ (execute_task ⟨1, 1⟩ envFail initAgentState "go").finalState.tool_error_count := by
  decide

/-- Claim C1 as amended (a run whose error count reaches
`max_tool_errors` ends in the error abort or — when the step limit is
reached at the same boundary — in the step-limit status; when the error
abort fires, the decision is taken before the Gateway is contacted in
the aborting iteration, so that iteration contributes no Gateway call
and the abort message reports the final error count; and the final
`step_count` never exceeds `max_steps`): proved. -/
theorem claim1_amended_error_budget :
    ∀ (cfg : AgentConfig) (env : CtrlEnv) (clock : Nat) (st : AgentState),
      st.is_task_complete = false →
      (cfg.max_tool_errors ≤ (agentLoop cfg env clock st).finalState.tool_error_count →
        (agentLoop cfg env clock st).exit = ExitKind.abortErrors
        ∨ (agentLoop cfg env clock st).exit = ExitKind.stepLimit)
      ∧ ((agentLoop cfg env clock st).exit = ExitKind.abortErrors →
        (agentLoop cfg env clock st).iterations
            = (agentLoop cfg env clock st).gatewayCalls + 1
        ∧ (agentLoop cfg env clock st).value
            = abortMsg (agentLoop cfg env clock st).finalState.tool_error_count)
      ∧ (st.step_count ≤ cfg.max_steps →
        (agentLoop cfg env clock st).finalState.step_count ≤ cfg.max_steps) := by
  intro cfg env clock st hc
  simp only [agentLoop]
  refine ⟨?_, ?_, ?_⟩
  · intro herr
    rcases loopGo_errors_exit cfg env (cfg.max_steps - st.step_count) clock st
        (by omega) hc with h | h
    · exact h
    · exact absurd herr (by omega)
  · intro hab
    have hg := loopGo_gateway cfg env (cfg.max_steps - st.step_count) clock st
    have hv := loopGo_abort_value cfg env (cfg.max_steps - st.step_count) clock st hab
    rw [hab] at hg
    simp at hg
    exact ⟨hg, hv.1⟩
  · intro hs
    exact loopGo_le cfg env (cfg.max_steps - st.step_count) clock st hs

/-- Witness for the amended C1: a failing tool with `max_steps = 3`
aborts at step 2, one iteration more than the Gateway was contacted. -/
theorem claim1_amended_error_budget_witness :
    ((agentLoop ⟨3, 1⟩ envFail 0 initAgentState).exit = ExitKind.abortErrors
      ∨ (agentLoop ⟨3, 1⟩ envFail 0 initAgentState).exit = ExitKind.stepLimit)
    ∧ (agentLoop ⟨3, 1⟩ envFail 0 initAgentState).iterations
        = (agentLoop ⟨3, 1⟩ envFail 0 initAgentState).gatewayCalls + 1
    ∧ (agentLoop ⟨3, 1⟩ envFail 0 initAgentState).finalState.step_count
        ≤ (⟨3, 1⟩ : AgentConfig).max_steps :=
  ⟨(claim1_amended_error_budget ⟨3, 1⟩ envFail 0 initAgentState rfl).1 (by decide),
   ((claim1_amended_error_budget ⟨3, 1⟩ envFail 0 initAgentState rfl).2.1 (by decide)).1,
   (claim1_amended_error_budget ⟨3, 1⟩ envFail 0 initAgentState rfl).2.2 (by decide)⟩

/-- Claim C2, counterexample: at the boundary where both budgets are
exhausted (`max_steps = 1` just spent, one tool error with
`max_tool_errors = 1`), the run returns the step-limit message, not the
error-abort message — the step-limit check wins, contrary to the claim. -/
theorem claim2_counterexample :
    (execute_task ⟨1, 1⟩ envFail initAgentState "go").value = stepLimitMsg 1
    ∧ (execute_task ⟨1, 1⟩ envFail initAgentState "go").value ≠ abortMsg 1
    ∧ 1 ≤ (execute_task ⟨1, 1⟩ envFail initAgentState "go").finalState.tool_error_count
    ∧ 1 ≤ (execute_task ⟨1, 1⟩ envFail initAgentState "go").finalState.step_count := by
  decide

/-- Claim C2 as amended (when both budgets are exhausted at the same
loop boundary, the run terminates with the step-limit status, not the
error-abort status: the `while` condition's step check runs before the
in-loop error check and wins): proved. -/
theorem claim2_amended_step_limit_wins :
    ∀ (cfg : AgentConfig) (env : CtrlEnv) (clock : Nat) (st : AgentState),
      st.is_task_complete = false →
      cfg.max_steps ≤ st.step_count →
      cfg.max_tool_errors ≤ st.tool_error_count →
      agentLoop cfg env clock st
        = ⟨ExitKind.stepLimit, stepLimitMsg cfg.max_steps, st, 0, 0⟩ := by
  intro cfg env clock st h1 h2 h3
  have hf : cfg.max_steps - st.step_count = 0 := by omega
  simp [agentLoop, hf, loopGo, boundaryReturn, h2]

/-- Witness for the amended C2 at a concrete doubly-exhausted boundary
state. -/
theorem claim2_amended_step_limit_wins_witness :
    agentLoop ⟨2, 3⟩ envFail 0 ⟨[], 2, 3, false⟩
      = ⟨ExitKind.stepLimit, stepLimitMsg 2, ⟨[], 2, 3, false⟩, 0, 0⟩ :=
  claim2_amended_step_limit_wins ⟨2, 3⟩ envFail 0 ⟨[], 2, 3, false⟩ rfl
    (by decide) (by decide)

/-- Claim C3, counterexample: after a completed run, re-invoking
`execute_task` on the same instance exits immediately through the
fall-through return without contacting the Gateway (`is_task_complete`
is still `true`), whereas calling `reset` first reproduces the fresh
run — so `execute_task` does not implicitly perform a reset. -/
theorem claim3_counterexample :
    (execute_task ⟨5, 5⟩ envDone
        (execute_task ⟨5, 5⟩ envDone initAgentState "t").finalState "t").exit
      = ExitKind.fallthrough
    ∧ (execute_task ⟨5, 5⟩ envDone
        (execute_task ⟨5, 5⟩ envDone initAgentState "t").finalState "t").gatewayCalls = 0
    ∧ (execute_task ⟨5, 5⟩ envDone
        (resetState (execute_task ⟨5, 5⟩ envDone initAgentState "t").finalState) "t").exit
      = ExitKind.finalResponse
    ∧ ExitKind.fallthrough ≠ ExitKind.finalResponse := by
  decide

/-- Claim C3 as amended (`execute_task` seeds the Conversation State
with the single user message, but does not reset `step_count`,
`tool_error_count` or `is_task_complete` — the counters persist, and a
stale completion flag makes the new invocation return "Task completed"
at once without any Gateway call; only the explicit `reset` restores the
initial state): proved. -/
theorem claim3_amended_no_implicit_reset :
    ∀ (cfg : AgentConfig) (env : CtrlEnv) (st : AgentState) (task : String),
      (execute_task cfg env st task).finalState.conversation_history.head?
          = some ⟨"user", task⟩
      ∧ st.step_count ≤ (execute_task cfg env st task).finalState.step_count
      ∧ st.tool_error_count ≤ (execute_task cfg env st task).finalState.tool_error_count
      ∧ (st.is_task_complete = true → st.step_count < cfg.max_steps →
          execute_task cfg env st task
            = ⟨ExitKind.fallthrough, "Task completed",
                { st with conversation_history := [⟨"user", task⟩] }, 0, 0⟩)
      ∧ resetState st = initAgentState := by
  intro cfg env st task
  simp only [execute_task, agentLoop]
  refine ⟨?_, ?_, ?_, ?_, rfl⟩
  · exact loopGo_head cfg env _ 0 { st with conversation_history := [⟨"user", task⟩] }
      ⟨"user", task⟩ rfl
  · rw [loopGo_step cfg env _ 0 { st with conversation_history := [⟨"user", task⟩] }]
    simp
  · exact loopGo_errors_mono cfg env _ 0 { st with conversation_history := [⟨"user", task⟩] }
  · intro h1 h2
    exact loopGo_stale cfg env _ 0 { st with conversation_history := [⟨"user", task⟩] } h1 h2

/-- Witness for the amended C3 at a concrete stale state. -/
theorem claim3_amended_no_implicit_reset_witness :
    execute_task ⟨5, 5⟩ envDone ⟨[], 1, 0, true⟩ "t"
      = ⟨ExitKind.fallthrough, "Task completed", ⟨[⟨"user", "t"⟩], 1, 0, true⟩, 0, 0⟩
    ∧ (execute_task ⟨5, 5⟩ envDone ⟨[], 1, 0, true⟩ "t").finalState.conversation_history.head?
      = some ⟨"user", "t"⟩ :=
  ⟨(claim3_amended_no_implicit_reset ⟨5, 5⟩ envDone ⟨[], 1, 0, true⟩ "t").2.2.2.1
      rfl (by decide),
   (claim3_amended_no_implicit_reset ⟨5, 5⟩ envDone ⟨[], 1, 0, true⟩ "t").1⟩

/-- Claim C7 (confirmed): a lowercased response containing a strict-tier
phrase (in particular `task complete`) is classified final, and a run
whose first Gateway response is classified final ends through the
strict-completion return with the raw response content as the result and
the completion flag set — regardless of any tool calls carried by the
same response, since the strict check precedes the tool-call check. -/
theorem claim7_strict_completion :
    (∀ content : String, strHasSub (pyLower content) "task complete" = true →
        isResponseFinal content = true)
    ∧ ∀ (cfg : AgentConfig) (env : CtrlEnv) (st : AgentState) (task : String),
        st.is_task_complete = false →
        st.step_count < cfg.max_steps →
        st.tool_error_count < cfg.max_tool_errors →
        isResponseFinal (env.llmGen [⟨"user", task⟩]).content = true →
        (execute_task cfg env st task).exit = ExitKind.finalResponse
        ∧ (execute_task cfg env st task).value = (env.llmGen [⟨"user", task⟩]).content
        ∧ (execute_task cfg env st task).finalState.is_task_complete = true := by
  constructor
  · intro content h
    simp [isResponseFinal, strictPhrases, h]
  · intro cfg env st task h1 h2 h3 hf
    simp only [execute_task, agentLoop]
    show (loopGo cfg env (cfg.max_steps - st.step_count) 0
        ⟨[⟨"user", task⟩], st.step_count, st.tool_error_count, st.is_task_complete⟩).exit
          = ExitKind.finalResponse ∧ _ ∧ _
    obtain ⟨k, hk⟩ : ∃ k, cfg.max_steps - st.step_count = k + 1 :=
      ⟨cfg.max_steps - st.step_count - 1, by omega⟩
    rw [hk]
    simp only [loopGo]
    split
    · split
      · rename_i ha
        exact absurd ha (Nat.not_le.mpr h3)
      · exact ⟨rfl, rfl, rfl⟩
    · rename_i hcond
      exact absurd ⟨h1, h2⟩ hcond

/-- Witness for C7: the response "Task complete. All files updated."
with a tool call attached ends the fresh run with exactly that content. -/
theorem claim7_strict_completion_witness :
    isResponseFinal "Task complete. All files updated." = true
    ∧ (execute_task ⟨50, 5⟩ envDoneWithCall initAgentState "update files").exit
        = ExitKind.finalResponse
    ∧ (execute_task ⟨50, 5⟩ envDoneWithCall initAgentState "update files").value
        = "Task complete. All files updated." :=
  ⟨claim7_strict_completion.1 "Task complete. All files updated." (by decide),
   (claim7_strict_completion.2 ⟨50, 5⟩ envDoneWithCall initAgentState "update files"
      rfl (by decide) (by decide) (by decide)).1,
   (claim7_strict_completion.2 ⟨50, 5⟩ envDoneWithCall initAgentState "update files"
      rfl (by decide) (by decide) (by decide)).2.1⟩

/-- Claim C8 (confirmed): within a run, `step_count` grows by exactly
one per entered iteration (final = initial + iterations), is therefore
monotonically non-decreasing, and never exceeds `max_steps` — at
termination and hence at every loop boundary, each being the start state
of a sub-run of the same shape. -/
theorem claim8_step_budget :
    ∀ (cfg : AgentConfig) (env : CtrlEnv) (clock : Nat) (st : AgentState),
      st.step_count ≤ cfg.max_steps →
      (agentLoop cfg env clock st).finalState.step_count
          = st.step_count + (agentLoop cfg env clock st).iterations
      ∧ st.step_count ≤ (agentLoop cfg env clock st).finalState.step_count
      ∧ (agentLoop cfg env clock st).finalState.step_count ≤ cfg.max_steps := by
  intro cfg env clock st h
  simp only [agentLoop]
  refine ⟨loopGo_step cfg env _ clock st, ?_, loopGo_le cfg env _ clock st h⟩
  rw [loopGo_step cfg env _ clock st]
  simp

/-- Witness for C8 on a concrete aborting run. -/
theorem claim8_step_budget_witness :
    (agentLoop ⟨3, 1⟩ envFail 0 initAgentState).finalState.step_count
        = initAgentState.step_count + (agentLoop ⟨3, 1⟩ envFail 0 initAgentState).iterations
    ∧ initAgentState.step_count
        ≤ (agentLoop ⟨3, 1⟩ envFail 0 initAgentState).finalState.step_count
    ∧ (agentLoop ⟨3, 1⟩ envFail 0 initAgentState).finalState.step_count
        ≤ (⟨3, 1⟩ : AgentConfig).max_steps :=
  claim8_step_budget ⟨3, 1⟩ envFail 0 initAgentState (by decide)

/-! ## Claims about the tool-call protocol -/

/-- Claim C4, counterexample: the parser is not total.  For the text
`<tool_call>5</tool_call>` the payload parses as the JSON number `5`,
and `tool_data["tool"]` then raises a `TypeError`, which the `except`
clause (`ValueError`, `KeyError`, `JSONDecodeError`) does not catch —
the exception propagates instead of degrading to zero calls. -/
theorem claim4_counterexample :
    parse_tool_calls ("<tool_call>5</tool_call>".data) = .error PyErr.typeError := by
  rfl

/-- Claim C4 as amended (the parser yields at most one call and is total
except when the payload parses as a JSON non-object, in which case a
`TypeError` propagates; all the enumerated cases behave as claimed: no
marker pair — including a begin marker without an end marker — yields
zero calls without raising, markers with an unparseable payload or a
payload missing the `tool` field yield zero calls, and the example text
yields exactly one call named `read_file` with arguments
`\x7b"path": "a.py"\x7d`; the streaming variant degrades the same way):
proved. -/
theorem claim4_amended_protocol :
    (∀ t : List Char, (hasSub beginMarker t && hasSub endMarker t) = false →
        parse_tool_calls t = .ok none)
    ∧ (∀ (t : List Char) (e : String), jsonLoads (extractPayload t) = .error e →
        parse_tool_calls t = .ok none)
    ∧ (∀ (t : List Char) (fields : JsonObj),
        jsonLoads (extractPayload t) = .ok (Json.obj fields) →
        objGetLast ("tool".data) fields = none →
        parse_tool_calls t = .ok none)
    ∧ parse_tool_calls
        ("<tool_call>\x7b\"tool\":\"read_file\",\"arguments\":\x7b\"path\":\"a.py\"\x7d\x7d</tool_call>".data)
      = .ok (some
          ⟨callId ("\x7b\"tool\":\"read_file\",\"arguments\":\x7b\"path\":\"a.py\"\x7d\x7d".data),
           Json.str ("read_file".data),
           Json.obj (JsonObj.cons ("path".data) (Json.str ("a.py".data)) JsonObj.nil)⟩)
    ∧ (∀ t : List Char, hasSub beginMarker t = false →
        streamingParseToolCalls t = .ok [])
    ∧ (∀ t : List Char, firstIdx endMarker t = none →
        streamingParseToolCalls t = .ok [])
    ∧ (∀ (t : List Char) (l : List ParsedCall),
        streamingParseToolCalls t = .ok l → l.length ≤ 1) := by
  refine ⟨?_, ?_, ?_, rfl, ?_, ?_, ?_⟩
  · intro t h
    simp [parse_tool_calls, h]
  · intro t e h
    simp only [parse_tool_calls, h]
    split <;> rfl
  · intro t fields h1 h2
    simp only [parse_tool_calls, h1, h2]
    split <;> rfl
  · intro t h
    simp [streamingParseToolCalls, h]
  · intro t h
    simp only [streamingParseToolCalls, h]
    split <;> rfl
  · intro t l h
    simp only [streamingParseToolCalls] at h
    split at h
    · cases h; simp
    · split at h
      · cases h; simp
      · split at h
        · cases h; simp
        · split at h
          · cases h; simp
          · cases h; simp
        · cases h

/-- Witness for the amended C4 at concrete texts: plain answer, begin
marker without end marker, unparseable payload, payload missing the
`tool` field, and the streaming variant on a markerless and an
unterminated text. -/
theorem claim4_amended_protocol_witness :
    parse_tool_calls ("plain answer, no markers".data) = .ok none
    ∧ parse_tool_calls ("<tool_call> begun but never ended".data) = .ok none
    ∧ parse_tool_calls ("<tool_call>not json</tool_call>".data) = .ok none
    ∧ parse_tool_calls ("<tool_call>\x7b\"a\":1\x7d</tool_call>".data) = .ok none
    ∧ streamingParseToolCalls ("no markers at all".data) = .ok []
    ∧ streamingParseToolCalls ("<tool_call> unterminated".data) = .ok []
    ∧ ([] : List ParsedCall).length ≤ 1 :=
  ⟨claim4_amended_protocol.1 ("plain answer, no markers".data) (by decide),
   claim4_amended_protocol.1 ("<tool_call> begun but never ended".data) (by decide),
   claim4_amended_protocol.2.1 ("<tool_call>not json</tool_call>".data) "Expecting value" rfl,
   claim4_amended_protocol.2.2.1 ("<tool_call>\x7b\"a\":1\x7d</tool_call>".data)
     (JsonObj.cons ("a".data) (Json.num 1) JsonObj.nil) rfl rfl,
   claim4_amended_protocol.2.2.2.2.1 ("no markers at all".data) (by decide),
   claim4_amended_protocol.2.2.2.2.2.1 ("<tool_call> unterminated".data) (by decide),
   claim4_amended_protocol.2.2.2.2.2.2 ("x".data) [] rfl⟩
